import Mathlib

/-!
Verification development for the object-pool pattern implementation
(files app.py and app_with_context.py, classes Reusable, ReusablePool
and PoolManager).  The two Python files define the identical Reusable
and ReusablePool classes; app_with_context.py additionally defines the
context manager PoolManager.  The Python classes are embedded below as
explicit state-passing functions; a raised Python exception is embedded
as an Except error value paired with the state the program holds when
the exception escapes.
-/

namespace ObjectPool

/-- Errors raised by the pool code. poolExhausted embeds the
Exception with message "No more objects are available." raised by
ReusablePool.acquire; doubleRelease embeds the ValueError raised by
list.remove when the element is absent (the error the spec calls
DoubleRelease); invalidCapacity is the construction error named by the
spec, which no code path ever raises; callerFailure stands for an
arbitrary exception raised by the body of a with-block, propagated
after the context manager exits. -/
inductive PoolErr where
  | poolExhausted
  | doubleRelease
  | invalidCapacity
  | callerFailure
  deriving DecidableEq

/-- The class-level state of ReusablePool.  In the source, free and
in_use are class attributes (initialised once, at class definition
time, to empty lists), so they are shared by every instance of the
class.  Resources (Reusable objects) are represented by their identity,
a natural number; nextId embeds the allocation of fresh identities: a
newly constructed Reusable is a fresh object, distinct from every
Reusable already held by the pool.  The last two fields are
instrumentation that the embedded code threads through unchanged unless
stated: resets counts invocations of a reset operation on a pooled
resource (the source defines and calls none), and releaseCalls counts
invocations of ReusablePool.release. -/
structure PoolState where
  free : List Nat
  in_use : List Nat
  nextId : Nat
  resets : Nat
  releaseCalls : Nat
  deriving DecidableEq

/-- The class state at program start: both class attributes are empty
lists and no resource exists yet. -/
def emptyState : PoolState := ⟨[], [], 0, 0, 0⟩

/-- A ReusablePool instance.  Only size is an instance attribute
(the assignment self.size = size in the constructor); reading
self.free or self.in_use on an instance falls through to the shared
class attributes, because no instance ever assigns them. -/
structure ReusablePool where
  size : Int
  deriving DecidableEq

/-- Attribute lookup pool.free: the instance has no own free
attribute, so the lookup resolves to the class attribute. -/
def ReusablePool.freeView (_p : ReusablePool) (cls : PoolState) : List Nat :=
  cls.free

/-- Attribute lookup pool.in_use, resolving to the class attribute. -/
def ReusablePool.inUseView (_p : ReusablePool) (cls : PoolState) : List Nat :=
  cls.in_use

/-- The constructor loop: for _ in range(n): self.free.append(Reusable()).
Each iteration appends one freshly allocated resource identity to the
shared free list. -/
def appendFresh : PoolState → Nat → PoolState
  | s, 0 => s
  | s, n + 1 =>
      appendFresh { s with free := s.free ++ [s.nextId], nextId := s.nextId + 1 } n

/-- ReusablePool.__init__(self, size): sets self.size = size, then runs
for _ in range(size): self.free.append(Reusable()).  For size <= 0 the
range is empty, so nothing is appended; no code path raises, so the
result is always ok.  In Python, range over a negative int is empty,
which Int.toNat reflects. -/
def initPool (s : PoolState) (size : Int) : Except PoolErr (ReusablePool × PoolState) :=
  Except.ok (⟨size⟩, appendFresh s size.toNat)

/-- Python list.remove(x): deletes the first element equal to x
(List.erase deletes exactly the first occurrence), raising ValueError
when x is not in the list.  Reusable defines no __eq__, so equality of
resources is identity, matching equality of the embedded identities. -/
def listRemove (l : List Nat) (x : Nat) : Except PoolErr (List Nat) :=
  if x ∈ l then Except.ok (l.erase x) else Except.error PoolErr.doubleRelease

/-- ReusablePool.acquire(self): raises when len(self.free) <= 0;
otherwise reads reusable = self.free[0], runs
self.free.remove(reusable) (which deletes the first occurrence of the
head, i.e. the head itself), appends reusable to self.in_use and
returns it.  The error branch of listRemove is unreachable here because
the head is a member of the list. -/
def acquire (s : PoolState) : Except PoolErr Nat × PoolState :=
  match s.free with
  | [] => (Except.error PoolErr.poolExhausted, s)
  | r :: _ =>
      match listRemove s.free r with
      | Except.ok rest =>
          (Except.ok r, { s with free := rest, in_use := s.in_use ++ [r] })
      | Except.error e => (Except.error e, s)

/-- ReusablePool.release(self, reusable): runs
self.in_use.remove(reusable) and then self.free.append(reusable).
When the resource is not in in_use, list.remove raises ValueError
before any mutation, so free and in_use are unchanged.  The function is
entered in every case, so releaseCalls is bumped first; the body
performs no reset of the resource, so resets is untouched. -/
def release (s : PoolState) (x : Nat) : Except PoolErr Unit × PoolState :=
  let s1 := { s with releaseCalls := s.releaseCalls + 1 }
  match listRemove s1.in_use x with
  | Except.ok rest =>
      (Except.ok (), { s1 with in_use := rest, free := s1.free ++ [x] })
  | Except.error e => (Except.error e, s1)

/-- The operations a program can perform on the shared class state:
construct a pool (ReusablePool(size)), acquire, or release a given
resource. -/
inductive POp where
  | construct (size : Int)
  | acq
  | rel (x : Nat)
  deriving DecidableEq

/-- The class state after one operation.  An operation that raises
leaves the program in the state the exception escapes with. -/
def step (s : PoolState) : POp → PoolState
  | POp.construct n =>
      match initPool s n with
      | Except.ok (_, s1) => s1
      | Except.error _ => s
  | POp.acq => (acquire s).2
  | POp.rel x => (release s x).2

/-- The class state after a sequence of operations. -/
def run (s : PoolState) (ops : List POp) : PoolState :=
  ops.foldl step s

/-- Total number of resources the class state holds. -/
def sumOf (s : PoolState) : Nat :=
  s.free.length + s.in_use.length

/-- A sequence of acquire and release calls that is valid from a given
state: acquires happen only when free is non-empty, releases only on a
resource currently in in_use, and the sequence contains no further pool
construction. -/
def validAR : PoolState → List POp → Bool
  | _, [] => true
  | s, POp.acq :: ops => !s.free.isEmpty && validAR (step s POp.acq) ops
  | s, POp.rel x :: ops => s.in_use.contains x && validAR (step s (POp.rel x)) ops
  | _, POp.construct _ :: _ => false

/-- A PoolManager instance from app_with_context.py: holds the pool
(self.pool) and the acquired object (self.obj, None until __enter__
stores one). -/
structure PoolManager where
  pool : ReusablePool
  obj : Option Nat
  deriving DecidableEq

/-- PoolManager.__init__(self, pool): stores the pool and sets
self.obj = None. -/
def initPM (p : ReusablePool) : PoolManager :=
  ⟨p, none⟩

/-- PoolManager.__enter__(self): self.obj = self.pool.acquire();
return self.obj.  When acquire raises, obj keeps its previous value and
the exception propagates. -/
def pmEnter (m : PoolManager) (s : PoolState) :
    Except PoolErr (PoolManager × Nat) × PoolState :=
  match acquire s with
  | (Except.ok r, s1) => (Except.ok ({ m with obj := some r }, r), s1)
  | (Except.error e, s1) => (Except.error e, s1)

/-- PoolManager.__exit__(self, type, value, traceback): unconditionally
runs self.pool.release(self.obj), ignoring the exception information.
When obj is still None, release(None) reaches list.remove(None), which
raises ValueError because None is never an element of in_use; the
releaseCalls bump records that pool.release was invoked. -/
def pmExit (m : PoolManager) (s : PoolState) : Except PoolErr Unit × PoolState :=
  match m.obj with
  | some r => release s r
  | none => (Except.error PoolErr.doubleRelease,
      { s with releaseCalls := s.releaseCalls + 1 })

/-- Whether the body of a with-block completes normally or raises. -/
inductive BodyOutcome where
  | normal
  | failing
  deriving DecidableEq

/-- The statement with PoolManager(pool) as r: body.  Python runs
__enter__; if it raises, the body and __exit__ never run.  Otherwise
the body runs, and __exit__ runs on every exit path; since __exit__
returns None (falsy), a body exception propagates after __exit__
completes, and an exception raised inside __exit__ itself propagates in
place of the body outcome. -/
def withPM (p : ReusablePool) (body : BodyOutcome) (s : PoolState) :
    Except PoolErr BodyOutcome × PoolState :=
  match pmEnter (initPM p) s with
  | (Except.error e, s1) => (Except.error e, s1)
  | (Except.ok (m, _r), s1) =>
      match body, pmExit m s1 with
      | _, (Except.error e, s2) => (Except.error e, s2)
      | BodyOutcome.normal, (Except.ok (), s2) => (Except.ok BodyOutcome.normal, s2)
      | BodyOutcome.failing, (Except.ok (), s2) => (Except.error PoolErr.callerFailure, s2)

/-! Helper lemmas characterising the embedded operations. -/

theorem listRemove_ok {l : List Nat} {x : Nat} (h : x ∈ l) :
    listRemove l x = Except.ok (l.erase x) := by
  simp [listRemove, h]

theorem listRemove_err {l : List Nat} {x : Nat} (h : x ∉ l) :
    listRemove l x = Except.error PoolErr.doubleRelease := by
  simp [listRemove, h]

theorem acquire_empty {s : PoolState} (h : s.free = []) :
    acquire s = (Except.error PoolErr.poolExhausted, s) := by
  obtain ⟨f, u, n, rs, rc⟩ := s
  simp only at h
  subst h
  rfl

theorem acquire_cons {s : PoolState} {r : Nat} {t : List Nat} (h : s.free = r :: t) :
    acquire s = (Except.ok r, { s with free := t, in_use := s.in_use ++ [r] }) := by
  obtain ⟨f, u, n, rs, rc⟩ := s
  simp only at h
  subst h
  simp [acquire, listRemove_ok (List.mem_cons_self r t), List.erase_cons_head]

theorem release_not_mem {s : PoolState} {x : Nat} (h : x ∉ s.in_use) :
    release s x =
      (Except.error PoolErr.doubleRelease,
        { s with releaseCalls := s.releaseCalls + 1 }) := by
  simp [release, listRemove_err h]

theorem release_mem {s : PoolState} {x : Nat} (h : x ∈ s.in_use) :
    release s x =
      (Except.ok (),
        { s with
            in_use := s.in_use.erase x
            free := s.free ++ [x]
            releaseCalls := s.releaseCalls + 1 }) := by
  simp [release, listRemove_ok h]

theorem appendFresh_fields (s : PoolState) (n : Nat) :
    (appendFresh s n).free.length = s.free.length + n ∧
      (appendFresh s n).in_use = s.in_use ∧
      (appendFresh s n).nextId = s.nextId + n ∧
      (appendFresh s n).resets = s.resets ∧
      (appendFresh s n).releaseCalls = s.releaseCalls := by
  induction n generalizing s with
  | zero => simp [appendFresh]
  | succ m ih =>
      obtain ⟨ha, hb, hc, hd, he⟩ :=
        ih { s with free := s.free ++ [s.nextId], nextId := s.nextId + 1 }
      simp only [List.length_append, List.length_singleton] at ha
      simp only at hc
      simp only [appendFresh]
      exact ⟨by omega, hb, by omega, hd, he⟩

theorem mem_appendFresh_free {s : PoolState} {n x : Nat} :
    x ∈ (appendFresh s n).free ↔ x ∈ s.free ∨ (s.nextId ≤ x ∧ x < s.nextId + n) := by
  induction n generalizing s with
  | zero => simp [appendFresh]
  | succ m ih =>
      simp only [appendFresh]
      rw [ih]
      simp only [List.mem_append, List.mem_singleton]
      constructor
      · rintro ((hx | rfl) | ⟨h1, h2⟩)
        · exact Or.inl hx
        · exact Or.inr ⟨le_refl _, by omega⟩
        · exact Or.inr ⟨by omega, by omega⟩
      · rintro (hx | ⟨h1, h2⟩)
        · exact Or.inl (Or.inl hx)
        · by_cases hx : x = s.nextId
          · exact Or.inl (Or.inr hx)
          · exact Or.inr ⟨by omega, by omega⟩

/-- The bookkeeping invariant of the class state: no duplicates inside
either list, the two lists are disjoint, and every identity in them was
allocated earlier than the next fresh one. -/
def Inv (s : PoolState) : Prop :=
  s.free.Nodup ∧ s.in_use.Nodup ∧ (∀ x ∈ s.free, x ∉ s.in_use) ∧
    (∀ x ∈ s.free, x < s.nextId) ∧ (∀ x ∈ s.in_use, x < s.nextId)

theorem Inv_emptyState : Inv emptyState := by
  simp [Inv, emptyState]

theorem Inv_stepFresh {s : PoolState} (hs : Inv s) :
    Inv { s with free := s.free ++ [s.nextId], nextId := s.nextId + 1 } := by
  obtain ⟨h1, h2, h3, h4, h5⟩ := hs
  simp only [Inv]
  refine ⟨?_, h2, ?_, ?_, ?_⟩
  · rw [List.nodup_append]
    refine ⟨h1, List.nodup_singleton _, ?_⟩
    intro a ha hb
    rw [List.mem_singleton] at hb
    exact absurd (h4 a ha) (by omega)
  · intro y hy
    rcases List.mem_append.mp hy with hy2 | hy2
    · exact h3 y hy2
    · rw [List.mem_singleton] at hy2
      intro hc
      exact absurd (h5 y hc) (by omega)
  · intro y hy
    rcases List.mem_append.mp hy with hy2 | hy2
    · exact Nat.lt_trans (h4 y hy2) (Nat.lt_succ_self _)
    · rw [List.mem_singleton] at hy2
      omega
  · intro y hy
    exact Nat.lt_trans (h5 y hy) (Nat.lt_succ_self _)

theorem Inv_appendFresh {s : PoolState} (hs : Inv s) (n : Nat) :
    Inv (appendFresh s n) := by
  induction n generalizing s with
  | zero => exact hs
  | succ m ih =>
      simp only [appendFresh]
      exact ih (Inv_stepFresh hs)

theorem Inv_step {s : PoolState} (hs : Inv s) (op : POp) : Inv (step s op) := by
  cases op with
  | construct n =>
      simpa [step, initPool] using Inv_appendFresh hs n.toNat
  | acq =>
      cases hf : s.free with
      | nil => simpa [step, acquire_empty hf] using hs
      | cons r t =>
          obtain ⟨h1, h2, h3, h4, h5⟩ := hs
          rw [hf] at h1 h3 h4
          simp only [step, acquire_cons hf, Inv]
          refine ⟨(List.nodup_cons.mp h1).2, ?_, ?_, ?_, ?_⟩
          · rw [List.nodup_append]
            refine ⟨h2, List.nodup_singleton _, ?_⟩
            intro a ha hb
            rw [List.mem_singleton] at hb
            exact h3 r (List.mem_cons_self r t) (hb ▸ ha)
          · intro y hy hc
            rcases List.mem_append.mp hc with hc2 | hc2
            · exact h3 y (List.mem_cons_of_mem r hy) hc2
            · rw [List.mem_singleton] at hc2
              exact (List.nodup_cons.mp h1).1 (hc2 ▸ hy)
          · intro y hy
            exact h4 y (List.mem_cons_of_mem r hy)
          · intro y hy
            rcases List.mem_append.mp hy with hy2 | hy2
            · exact h5 y hy2
            · rw [List.mem_singleton] at hy2
              exact hy2 ▸ h4 r (List.mem_cons_self r t)
  | rel x =>
      by_cases hx : x ∈ s.in_use
      · obtain ⟨h1, h2, h3, h4, h5⟩ := hs
        simp only [step, release_mem hx, Inv]
        refine ⟨?_, h2.erase x, ?_, ?_, ?_⟩
        · rw [List.nodup_append]
          refine ⟨h1, List.nodup_singleton _, ?_⟩
          intro a ha hb
          rw [List.mem_singleton] at hb
          exact h3 a ha (hb ▸ hx)
        · intro y hy hc
          have hyin : y ∈ s.in_use := List.erase_subset _ _ hc
          rcases List.mem_append.mp hy with hy2 | hy2
          · exact h3 y hy2 hyin
          · rw [List.mem_singleton] at hy2
            exact ((h2.mem_erase_iff).mp (hy2 ▸ hc)).1 rfl
        · intro y hy
          rcases List.mem_append.mp hy with hy2 | hy2
          · exact h4 y hy2
          · rw [List.mem_singleton] at hy2
            exact hy2 ▸ h5 x hx
        · intro y hy
          exact h5 y (List.erase_subset _ _ hy)
      · simpa [step, release_not_mem hx] using hs

theorem Inv_run {s : PoolState} (hs : Inv s) (ops : List POp) : Inv (run s ops) := by
  induction ops generalizing s with
  | nil => exact hs
  | cons op ops ih => exact ih (Inv_step hs op)

theorem sumOf_step_acq (s : PoolState) : sumOf (step s POp.acq) = sumOf s := by
  cases hf : s.free with
  | nil => simp [step, acquire_empty hf]
  | cons r t =>
      simp only [step, acquire_cons hf, sumOf]
      rw [hf]
      simp only [List.length_append, List.length_cons, List.length_nil]
      omega

theorem sumOf_step_rel (s : PoolState) (x : Nat) :
    sumOf (step s (POp.rel x)) = sumOf s := by
  by_cases hx : x ∈ s.in_use
  · have hpos : 0 < s.in_use.length := List.length_pos_of_mem hx
    simp only [step, release_mem hx, sumOf]
    rw [List.length_erase_of_mem hx]
    simp only [List.length_append, List.length_singleton]
    omega
  · simp [step, release_not_mem hx, sumOf]

theorem validAR_sumOf_run {ops : List POp} :
    ∀ {s : PoolState}, validAR s ops = true → sumOf (run s ops) = sumOf s := by
  induction ops with
  | nil => intro s _; rfl
  | cons op ops ih =>
      intro s h
      cases op with
      | construct n => simp [validAR] at h
      | acq =>
          rw [validAR, Bool.and_eq_true] at h
          calc sumOf (run s (POp.acq :: ops))
              = sumOf (run (step s POp.acq) ops) := rfl
            _ = sumOf (step s POp.acq) := ih h.2
            _ = sumOf s := sumOf_step_acq s
      | rel x =>
          rw [validAR, Bool.and_eq_true] at h
          calc sumOf (run s (POp.rel x :: ops))
              = sumOf (run (step s (POp.rel x)) ops) := rfl
            _ = sumOf (step s (POp.rel x)) := ih h.2
            _ = sumOf s := sumOf_step_rel s x

theorem validAR_take {ops : List POp} :
    ∀ {s : PoolState} {n : Nat}, validAR s ops = true → validAR s (ops.take n) = true := by
  induction ops with
  | nil => intro s n _; simp [validAR]
  | cons op ops ih =>
      intro s n h
      cases n with
      | zero => rfl
      | succ m =>
          cases op with
          | construct k => simp [validAR] at h
          | acq =>
              rw [validAR, Bool.and_eq_true] at h
              rw [List.take_succ_cons, validAR, Bool.and_eq_true]
              exact ⟨h.1, ih h.2⟩
          | rel x =>
              rw [validAR, Bool.and_eq_true] at h
              rw [List.take_succ_cons, validAR, Bool.and_eq_true]
              exact ⟨h.1, ih h.2⟩

/-! Claim theorems. -/

/-- C1, counterexample: the claim quantifies over every constructed
pool, but free and in_use are class attributes shared by all pools.
After constructing a first pool of capacity 1 and then a second pool of
capacity 1, a single valid acquire on the second pool leaves
2 resources in free plus in_use, not the second pool capacity 1. -/
theorem second_pool_sum_exceeds_capacity :
    validAR (run emptyState [POp.construct 1, POp.construct 1]) [POp.acq] = true ∧
      sumOf (run (run emptyState [POp.construct 1, POp.construct 1]) [POp.acq]) = 2 ∧
      (2 : Nat) ≠ (1 : Int).toNat := by
  refine ⟨rfl, rfl, by decide⟩

/-- C1, amended: for the first pool, constructed from the initial empty
class state with capacity c, every sequence of acquire and release
calls that acquires only when free is non-empty and releases only
currently leased resources keeps the total number of resources in free
plus in_use equal to the pool capacity after every call (every prefix
of the sequence). -/
theorem sum_invariant_first_pool (c : Int) (ops : List POp) (n : Nat)
    (h : validAR (step emptyState (POp.construct c)) ops = true) :
    sumOf (run (step emptyState (POp.construct c)) (ops.take n)) = c.toNat := by
  have h2 : sumOf (run (step emptyState (POp.construct c)) (ops.take n))
      = sumOf (step emptyState (POp.construct c)) :=
    validAR_sumOf_run (validAR_take h)
  rw [h2]
  show sumOf (appendFresh emptyState c.toNat) = c.toNat
  simp only [sumOf]
  rw [(appendFresh_fields emptyState c.toNat).1,
    (appendFresh_fields emptyState c.toNat).2.1]
  simp [emptyState]

/-- Witness for the amended C1 at capacity 2 with the sequence
acquire then release. -/
theorem sum_invariant_first_pool_witness :
    validAR (step emptyState (POp.construct 2)) [POp.acq, POp.rel 0] = true ∧
      sumOf (run (step emptyState (POp.construct 2))
        ([POp.acq, POp.rel 0].take 2)) = (2 : Int).toNat :=
  ⟨by decide, sum_invariant_first_pool 2 [POp.acq, POp.rel 0] 2 (by decide)⟩

/-- C2: after every prefix of every operation sequence started from the
initial class state (pool constructions, acquires and releases,
whether valid or raising), no resource is in both free and in_use. -/
theorem no_resource_in_free_and_in_use (ops : List POp) (n x : Nat)
    (h : x ∈ (run emptyState (ops.take n)).in_use) :
    x ∉ (run emptyState (ops.take n)).free := by
  intro hf
  exact (Inv_run Inv_emptyState (ops.take n)).2.2.1 x hf h

/-- Witness for C2: after constructing a pool of capacity 1 and
acquiring, resource 0 is in in_use and therefore not in free. -/
theorem no_resource_in_free_and_in_use_witness :
    0 ∈ (run emptyState ([POp.construct 1, POp.acq].take 2)).in_use ∧
      0 ∉ (run emptyState ([POp.construct 1, POp.acq].take 2)).free :=
  ⟨by decide, no_resource_in_free_and_in_use [POp.construct 1, POp.acq] 2 0 (by decide)⟩

/-- C3: on every class state whose free list is empty, acquire raises
the exhaustion error (the raise happens before any mutation, so no
resource is created and the whole state, in particular both lists, is
unchanged). -/
theorem acquire_exhausted_no_mutation (s : PoolState) (h : s.free = []) :
    (acquire s).1 = Except.error PoolErr.poolExhausted ∧ (acquire s).2 = s := by
  rw [acquire_empty h]
  exact ⟨rfl, rfl⟩

/-- Witness for C3 on a fully leased pool of capacity 2. -/
theorem acquire_exhausted_no_mutation_witness :
    (⟨[], [0, 1], 2, 0, 0⟩ : PoolState).free = [] ∧
      (acquire ⟨[], [0, 1], 2, 0, 0⟩).1 = Except.error PoolErr.poolExhausted ∧
      (acquire ⟨[], [0, 1], 2, 0, 0⟩).2 = (⟨[], [0, 1], 2, 0, 0⟩ : PoolState) :=
  ⟨rfl, acquire_exhausted_no_mutation ⟨[], [0, 1], 2, 0, 0⟩ rfl⟩

/-- C4: the code contradicts the reset requirement stated in its own
commentary.  In general release never touches the resets counter, and
at the concrete failing input (capacity 1, acquire resource 0, release
it) the release succeeds and resource 0 re-enters free with the reset
count still 0, not 1: no reset operation is invoked before the resource
becomes acquirable again (the Reusable class defines none and release
calls none). -/
theorem release_performs_no_reset :
    (∀ (s : PoolState) (x : Nat), (release s x).2.resets = s.resets) ∧
      (release (run emptyState [POp.construct 1, POp.acq]) 0).1 = Except.ok () ∧
      0 ∈ (release (run emptyState [POp.construct 1, POp.acq]) 0).2.free ∧
      (release (run emptyState [POp.construct 1, POp.acq]) 0).2.resets = 0 := by
  refine ⟨?_, rfl, by decide, rfl⟩
  intro s x
  by_cases hx : x ∈ s.in_use
  · simp [release_mem hx]
  · simp [release_not_mem hx]

/-- C5: releasing a resource that is not currently in in_use raises the
error the spec calls DoubleRelease (the ValueError of list.remove), and
the raise happens before any mutation, so free and in_use are exactly
as before. -/
theorem release_not_leased_error_no_mutation (s : PoolState) (x : Nat)
    (h : x ∉ s.in_use) :
    (release s x).1 = Except.error PoolErr.doubleRelease ∧
      (release s x).2.free = s.free ∧ (release s x).2.in_use = s.in_use := by
  rw [release_not_mem h]
  exact ⟨rfl, rfl, rfl⟩

/-- Witness for C5, the double-release scenario: construct capacity 1,
acquire resource 0, release it; the second release of resource 0 raises
and changes neither list. -/
theorem release_not_leased_error_no_mutation_witness :
    0 ∉ (run emptyState [POp.construct 1, POp.acq, POp.rel 0]).in_use ∧
      ((release (run emptyState [POp.construct 1, POp.acq, POp.rel 0]) 0).1
          = Except.error PoolErr.doubleRelease ∧
        (release (run emptyState [POp.construct 1, POp.acq, POp.rel 0]) 0).2.free
          = (run emptyState [POp.construct 1, POp.acq, POp.rel 0]).free ∧
        (release (run emptyState [POp.construct 1, POp.acq, POp.rel 0]) 0).2.in_use
          = (run emptyState [POp.construct 1, POp.acq, POp.rel 0]).in_use) :=
  ⟨by decide,
    release_not_leased_error_no_mutation
      (run emptyState [POp.construct 1, POp.acq, POp.rel 0]) 0 (by decide)⟩

/-- C6, counterexample: construction with capacity 0 and with capacity
-5 succeeds and produces a pool; no InvalidCapacity error exists in the
code (the constructor merely runs an empty range loop). -/
theorem nonpositive_capacity_construction_succeeds :
    initPool emptyState 0 = Except.ok (⟨0⟩, emptyState) ∧
      initPool emptyState (-5) = Except.ok (⟨-5⟩, emptyState) :=
  ⟨rfl, rfl⟩

/-- C6, amended: construction never fails for any capacity; it sets the
size attribute to the requested capacity and appends exactly
max(capacity, 0) fresh resources to the shared free list, so a capacity
at most zero appends none. -/
theorem construction_never_fails (s : PoolState) (c : Int) :
    ∃ s2, initPool s c = Except.ok (⟨c⟩, s2) ∧
      s2.free.length = s.free.length + c.toNat ∧ s2.in_use = s.in_use :=
  ⟨appendFresh s c.toNat, rfl, (appendFresh_fields s c.toNat).1,
    (appendFresh_fields s c.toNat).2.1⟩

/-- C7: acquire always returns the head of the free list (the lowest
free index), and the concrete capacity-2 scenario holds: acquire A
(resource 0) and B (resource 1) succeed, a third acquire raises
exhaustion, after releasing A the next acquire returns the same
identity 0 as A, and after releasing B and that resource the pool is
back to two free and zero leased resources. -/
theorem acquire_head_and_scenario :
    (∀ (s : PoolState) (r : Nat) (t : List Nat), s.free = r :: t →
        acquire s = (Except.ok r, { s with free := t, in_use := s.in_use ++ [r] })) ∧
      run emptyState [POp.construct 2] = ⟨[0, 1], [], 2, 0, 0⟩ ∧
      acquire ⟨[0, 1], [], 2, 0, 0⟩ = (Except.ok 0, ⟨[1], [0], 2, 0, 0⟩) ∧
      acquire ⟨[1], [0], 2, 0, 0⟩ = (Except.ok 1, ⟨[], [0, 1], 2, 0, 0⟩) ∧
      acquire ⟨[], [0, 1], 2, 0, 0⟩
        = (Except.error PoolErr.poolExhausted, ⟨[], [0, 1], 2, 0, 0⟩) ∧
      release ⟨[], [0, 1], 2, 0, 0⟩ 0 = (Except.ok (), ⟨[0], [1], 2, 0, 1⟩) ∧
      acquire ⟨[0], [1], 2, 0, 1⟩ = (Except.ok 0, ⟨[], [1, 0], 2, 0, 1⟩) ∧
      release ⟨[], [1, 0], 2, 0, 1⟩ 1 = (Except.ok (), ⟨[1], [0], 2, 0, 2⟩) ∧
      release ⟨[1], [0], 2, 0, 2⟩ 0 = (Except.ok (), ⟨[1, 0], [], 2, 0, 3⟩) ∧
      ([1, 0] : List Nat).length = 2 :=
  ⟨fun _ _ _ h => acquire_cons h, rfl, rfl, rfl, rfl, rfl, rfl, rfl, rfl, rfl⟩

/-- Witness for the general head-selection part of C7. -/
theorem acquire_head_and_scenario_witness :
    acquire ⟨[7, 9], [], 10, 0, 0⟩ = (Except.ok 7, ⟨[9], [7], 10, 0, 0⟩) :=
  acquire_head_and_scenario.1 ⟨[7, 9], [], 10, 0, 0⟩ 7 [9] rfl

/-- C8, counterexample: free is a class attribute, so a second freshly
constructed pool of capacity 1 observes 2 resources in free, not 1. -/
theorem second_pool_free_exceeds_capacity :
    initPool emptyState 1 = Except.ok (⟨1⟩, ⟨[0], [], 1, 0, 0⟩) ∧
      initPool ⟨[0], [], 1, 0, 0⟩ 1 = Except.ok (⟨1⟩, ⟨[0, 1], [], 2, 0, 0⟩) ∧
      ([0, 1] : List Nat).length ≠ 1 :=
  ⟨rfl, rfl, by decide⟩

/-- C8, amended: the first pool, constructed from the initial empty
class state with capacity c greater than zero, observes exactly c
resources in free and none in in_use. -/
theorem first_pool_initial_contents (c : Int) (h : 0 < c) :
    ∃ s2, initPool emptyState c = Except.ok (⟨c⟩, s2) ∧
      s2.free.length = c.toNat ∧ s2.in_use = [] := by
  refine ⟨appendFresh emptyState c.toNat, rfl, ?_, ?_⟩
  · simpa [emptyState] using (appendFresh_fields emptyState c.toNat).1
  · simpa [emptyState] using (appendFresh_fields emptyState c.toNat).2.1

/-- Witness for the amended C8 at capacity 3. -/
theorem first_pool_initial_contents_witness :
    (0 : Int) < 3 ∧
      ∃ s2, initPool emptyState 3 = Except.ok (⟨3⟩, s2) ∧
        s2.free.length = (3 : Int).toNat ∧ s2.in_use = [] :=
  ⟨by decide, first_pool_initial_contents 3 (by decide)⟩

/-- C9, counterexample: after a successful enter and exit on a
capacity-1 pool, a second invocation of exit is not an idempotent
no-op: it invokes pool.release again (the releaseCalls count goes from
1 to 2) and that second release raises, because the stored resource is
no longer leased.  The code keeps no consumed flag. -/
theorem pm_exit_not_idempotent :
    pmEnter (initPM ⟨1⟩) ⟨[0], [], 1, 0, 0⟩
        = (Except.ok (⟨⟨1⟩, some 0⟩, 0), ⟨[], [0], 1, 0, 0⟩) ∧
      pmExit ⟨⟨1⟩, some 0⟩ ⟨[], [0], 1, 0, 0⟩ = (Except.ok (), ⟨[0], [], 1, 0, 1⟩) ∧
      pmExit ⟨⟨1⟩, some 0⟩ ⟨[0], [], 1, 0, 1⟩
        = (Except.error PoolErr.doubleRelease, ⟨[0], [], 1, 0, 2⟩) :=
  ⟨rfl, rfl, rfl⟩

theorem withPM_eq {s : PoolState} {r : Nat} {t : List Nat} (h : s.free = r :: t)
    (p : ReusablePool) (body : BodyOutcome) :
    withPM p body s =
      ((match body with
        | BodyOutcome.normal => Except.ok BodyOutcome.normal
        | BodyOutcome.failing => Except.error PoolErr.callerFailure),
        { s with
            free := t ++ [r]
            in_use := (s.in_use ++ [r]).erase r
            releaseCalls := s.releaseCalls + 1 }) := by
  have hmem : r ∈ ({ s with free := t, in_use := s.in_use ++ [r] } : PoolState).in_use := by
    simp
  cases body <;>
    simp only [withPM, pmEnter, initPM, acquire_cons h, pmExit, release_mem hmem]

/-- C9, amended: a with-block on a pool with a free resource invokes
pool.release on the acquired resource exactly once, on every exit path
(the body completing normally or raising), and the resource is back in
the free list afterwards; exit itself is not idempotent. -/
theorem pm_exit_releases_every_path (p : ReusablePool) (body : BodyOutcome)
    (s : PoolState) (r : Nat) (t : List Nat) (h : s.free = r :: t) :
    ∃ e s2, withPM p body s = (e, s2) ∧
      s2.releaseCalls = s.releaseCalls + 1 ∧ r ∈ s2.free := by
  refine ⟨_, _, withPM_eq h p body, rfl, ?_⟩
  simp

/-- Witness for the amended C9 with a failing body. -/
theorem pm_exit_releases_every_path_witness :
    (⟨[5], [], 6, 0, 0⟩ : PoolState).free = 5 :: [] ∧
      ∃ e s2, withPM ⟨1⟩ BodyOutcome.failing ⟨[5], [], 6, 0, 0⟩ = (e, s2) ∧
        s2.releaseCalls = (⟨[5], [], 6, 0, 0⟩ : PoolState).releaseCalls + 1 ∧
        5 ∈ s2.free :=
  ⟨rfl, pm_exit_releases_every_path ⟨1⟩ BodyOutcome.failing ⟨[5], [], 6, 0, 0⟩ 5 [] rfl⟩

/-- C10: free is class-level shared state.  Constructing a pool of
capacity c1 and then a second pool of capacity c2 leaves both pool
objects observing the very same free list, which holds c1 + c2
resources, and the construction of the second pool changed the contents
the first pool observes (from c1 to c1 + c2 resources). -/
theorem class_level_shared_free_list (c1 c2 : Int) (h1 : 0 < c1) (h2 : 0 < c2) :
    ∃ p1 p2 s1 s2,
      initPool emptyState c1 = Except.ok (p1, s1) ∧
      initPool s1 c2 = Except.ok (p2, s2) ∧
      ReusablePool.freeView p1 s2 = ReusablePool.freeView p2 s2 ∧
      (ReusablePool.freeView p1 s2).length = c1.toNat + c2.toNat ∧
      (ReusablePool.freeView p1 s1).length = c1.toNat := by
  refine ⟨⟨c1⟩, ⟨c2⟩, appendFresh emptyState c1.toNat,
    appendFresh (appendFresh emptyState c1.toNat) c2.toNat, rfl, rfl, rfl, ?_, ?_⟩
  · show (appendFresh (appendFresh emptyState c1.toNat) c2.toNat).free.length
        = c1.toNat + c2.toNat
    rw [(appendFresh_fields (appendFresh emptyState c1.toNat) c2.toNat).1,
      (appendFresh_fields emptyState c1.toNat).1]
    simp [emptyState]
  · show (appendFresh emptyState c1.toNat).free.length = c1.toNat
    rw [(appendFresh_fields emptyState c1.toNat).1]
    simp [emptyState]

/-- Witness for C10 with capacities 1 and 2. -/
theorem class_level_shared_free_list_witness :
    (0 : Int) < 1 ∧ (0 : Int) < 2 ∧
      ∃ p1 p2 s1 s2,
        initPool emptyState 1 = Except.ok (p1, s1) ∧
        initPool s1 2 = Except.ok (p2, s2) ∧
        ReusablePool.freeView p1 s2 = ReusablePool.freeView p2 s2 ∧
        (ReusablePool.freeView p1 s2).length = (1 : Int).toNat + (2 : Int).toNat ∧
        (ReusablePool.freeView p1 s1).length = (1 : Int).toNat :=
  ⟨by decide, by decide, class_level_shared_free_list 1 2 (by decide) (by decide)⟩

end ObjectPool
